import Mathlib

/-!
# k8s-route53: the service listener

A shallow embedding of `service_listener.go`. The program polls the cluster's
service catalog and, for every service, looks up its load balancer and the
hosted zone of the configured top-level domain, then submits one alias-record
UPSERT to Route 53.

Modelling conventions.

* Go strings are Lean `String`s. The two separators the program splits on
  (`"-"` and `"/"`) are one-byte ASCII strings, so splitting a UTF-8 string on
  them by bytes or by characters gives the same pieces; `len(x) < 1` is
  emptiness under either count.
* The three AWS operations and the `TLD` environment variable are the fields of
  `Env`. An AWS operation answers as a function of its request; the calls the
  program makes are recorded, in order, in the `calls` of a `Step`.
* `glog.Fatalf` ends the process (`Outcome.fatal`), `continue` after a warning
  is `Outcome.skip`, and a Go runtime panic (a slice index out of range, or a
  nil `*string` that is dereferenced) ends it as `Outcome.panic`.
* A `*string` member of an SDK shape is an `Option String`, `none` being the
  nil pointer. The slices of an answer hold no nil element: the SDK allocates
  each element it decodes.
-/

namespace K8sRoute53

/-! ## The catalog types (lines 22-50 of `service_listener.go`) -/

structure Ingress where
  Hostname : String
  deriving DecidableEq, Repr

structure LoadBalancer where
  Ingress : List Ingress
  deriving DecidableEq, Repr

structure Status where
  LoadBalancer : LoadBalancer
  deriving DecidableEq, Repr

structure Annotations where
  DomainName : String
  deriving DecidableEq, Repr

structure Metadata where
  Annotations : Annotations
  Name : String
  deriving DecidableEq, Repr

structure Service where
  Metadata : Metadata
  Status : Status
  deriving DecidableEq, Repr

structure Services where
  Items : List Service
  deriving DecidableEq, Repr

/-! ## The AWS SDK shapes the program reads and builds -/

/-- The member of `elb.LoadBalancerDescription` the program reads. It is a
`*string` that the program never dereferences: it is handed on as it is. -/
structure LoadBalancerDescription where
  CanonicalHostedZoneNameID : Option String
  deriving DecidableEq, Repr

structure DescribeLoadBalancersInput where
  LoadBalancerNames : List String
  deriving DecidableEq, Repr

structure DescribeLoadBalancersOutput where
  LoadBalancerDescriptions : List LoadBalancerDescription
  deriving DecidableEq, Repr

/-- The members of `route53.HostedZone` the program reads. Both are `*string`,
and the program dereferences both without a nil test (lines 180 and 184). -/
structure HostedZone where
  Name : Option String
  Id : Option String
  deriving DecidableEq, Repr

structure ListHostedZonesByNameInput where
  DNSName : String
  deriving DecidableEq, Repr

structure ListHostedZonesByNameOutput where
  HostedZones : List HostedZone
  deriving DecidableEq, Repr

structure AliasTarget where
  DNSName : String
  EvaluateTargetHealth : Bool
  HostedZoneId : Option String
  deriving DecidableEq, Repr

structure ResourceRecordSet where
  AliasTarget : AliasTarget
  Name : String
  /-- The member `Type` of the SDK shape (`Type` is reserved in Lean). -/
  Type_ : String
  deriving DecidableEq, Repr

structure Change where
  Action : String
  ResourceRecordSet : ResourceRecordSet
  deriving DecidableEq, Repr

structure ChangeBatch where
  Changes : List Change
  Comment : String
  deriving DecidableEq, Repr

structure ChangeResourceRecordSetsInput where
  ChangeBatch : ChangeBatch
  HostedZoneId : String
  deriving DecidableEq, Repr

/-! ## `strings.Split` on a one-character separator -/

/-- The pieces of `s` between the occurrences of `sep`, as `strings.Split`
returns them: one piece more than there are separators, never an empty
slice. -/
def splitChars (sep : Char) : List Char → List (List Char)
  | [] => [[]]
  | c :: cs =>
    if c = sep then [] :: splitChars sep cs
    else
      match splitChars sep cs with
      | [] => [[c]]
      | p :: ps => (c :: p) :: ps

/-- Go's `strings.Split(s, sep)` for a separator of one character. -/
def Split (s : String) (sep : Char) : List String :=
  (splitChars sep s.data).map String.mk

/-- What stands in `l` before its first `sep`: all of `l` when it holds no
`sep`. -/
def beforeFirst (sep : Char) (l : List Char) : List Char :=
  l.takeWhile fun c => c != sep

/-! ## The environment and the recorded calls -/

/-- What the loop reads from outside the program: the `TLD` environment
variable and the answers of the three AWS operations (`.error` is a non-nil
`err`). -/
structure Env where
  TLD : String
  DescribeLoadBalancers :
    DescribeLoadBalancersInput → Except String DescribeLoadBalancersOutput
  ListHostedZonesByName :
    ListHostedZonesByNameInput → Except String ListHostedZonesByNameOutput
  ChangeResourceRecordSets : ChangeResourceRecordSetsInput → Except String Unit

/-- One request sent to AWS. -/
inductive Call where
  | describeLoadBalancers (input : DescribeLoadBalancersInput)
  | listHostedZonesByName (input : ListHostedZonesByNameInput)
  | changeResourceRecordSets (input : ChangeResourceRecordSetsInput)
  deriving DecidableEq, Repr

/-- How one pass through the body of the `for i := range services.Items` loop
ends. -/
inductive Outcome where
  /-- A `glog.Warningf` followed by `continue`. -/
  | skip (warning : String)
  /-- The end of the body was reached: the record set was submitted. -/
  | done
  /-- A `glog.Fatalf`: the process exits. -/
  | fatal (message : String)
  /-- A Go runtime panic, which ends the process: a slice index out of range or
  a nil pointer dereference. -/
  | panic
  deriving DecidableEq, Repr

/-- The AWS requests made by a piece of the program, in order, and how it
ended. -/
structure Step where
  calls : List Call
  outcome : Outcome
  deriving DecidableEq, Repr

/-! ## The loop body (lines 119-214) -/

/-- The body of the loop over `services.Items`, for the service `s`. The
`.panic` branches of the three slice indexings cannot be taken (the lengths
are tested first, and `strings.Split` never returns an empty slice); those of
the two pointer reads are taken when the zone answer leaves the member nil. -/
def loopBody (env : Env) (s : Service) : Step :=
  let ingress := s.Status.LoadBalancer.Ingress
  if ingress.length < 1 then
    ⟨[], .skip "No ingress defined for ELB"⟩
  else if ingress.length < 1 then
    ⟨[], .skip "Multiple ingress points found for ELB, not supported"⟩
  else
  match ingress[0]? with
  | none => ⟨[], .panic⟩
  | some i0 =>
  let hn := i0.Hostname
  let domain := s.Metadata.Annotations.DomainName
  if domain.length < 1 then
    ⟨[], .skip "Domain name not set for %s"⟩
  else
  let tld := env.TLD
  if tld = "" then
    ⟨[], .fatal "Please provide tld"⟩
  else
  match (Split hn '-')[0]? with
  | none => ⟨[], .panic⟩
  | some elbName =>
  let lbInput : DescribeLoadBalancersInput := ⟨[elbName]⟩
  match env.DescribeLoadBalancers lbInput with
  | .error _ =>
    ⟨[.describeLoadBalancers lbInput], .skip "Could not describe load balancer: %v"⟩
  | .ok resp =>
  let descs := resp.LoadBalancerDescriptions
  if descs.length < 1 then
    ⟨[.describeLoadBalancers lbInput], .skip "No lb found for %s: %v"⟩
  else if descs.length > 1 then
    ⟨[.describeLoadBalancers lbInput], .skip "Multiple lbs found for %s: %v"⟩
  else
  match descs[0]? with
  | none => ⟨[.describeLoadBalancers lbInput], .panic⟩
  | some d0 =>
  let hzId := d0.CanonicalHostedZoneNameID
  let listHostedZoneInput : ListHostedZonesByNameInput := ⟨tld⟩
  let lookups : List Call :=
    [.describeLoadBalancers lbInput, .listHostedZonesByName listHostedZoneInput]
  match env.ListHostedZonesByName listHostedZoneInput with
  | .error _ => ⟨lookups, .skip "No zone found for %s: %v"⟩
  | .ok hzOut =>
  let zones := hzOut.HostedZones
  if zones.length < 1 then
    ⟨lookups, .skip "No zone found for %s"⟩
  else
  match zones[0]? with
  | none => ⟨lookups, .panic⟩
  | some z0 =>
  let tldWithDot := tld ++ "."
  -- line 180 reads `*zones[0].Name`
  match z0.Name with
  | none => ⟨lookups, .panic⟩
  | some name =>
  if name ≠ tldWithDot then
    ⟨lookups, .skip "Zone found %s does not match tld given %s"⟩
  else
  -- line 184 reads `*zones[0].Id`
  match z0.Id with
  | none => ⟨lookups, .panic⟩
  | some zoneId =>
  let zoneParts := Split zoneId '/'
  match zoneParts[zoneParts.length - 1]? with
  | none => ⟨lookups, .panic⟩
  | some zoneId =>
  let at_ : AliasTarget := ⟨hn, false, hzId⟩
  let rrs : ResourceRecordSet := ⟨at_, domain, "A"⟩
  let change : Change := ⟨"UPSERT", rrs⟩
  let batch : ChangeBatch := ⟨[change], "Kubernetes Update to Service"⟩
  let crrsInput : ChangeResourceRecordSetsInput := ⟨batch, zoneId⟩
  match env.ChangeResourceRecordSets crrsInput with
  | .error _ =>
    ⟨lookups ++ [.changeResourceRecordSets crrsInput],
      .skip "Failed to update record set: %v"⟩
  | .ok _ => ⟨lookups ++ [.changeResourceRecordSets crrsInput], .done⟩

/-! ## One poll cycle (lines 100-216) -/

/-- The loop `for i := range services.Items`: the services are taken in the
order of the catalog; a fatal exit or a panic ends the process, so no later
service is reached. -/
def rangeItems (env : Env) : List Service → Step
  | [] => ⟨[], .done⟩
  | s :: rest =>
    let r := loopBody env s
    match r.outcome with
    | .fatal m => ⟨r.calls, .fatal m⟩
    | .panic => ⟨r.calls, .panic⟩
    | _ =>
      let r' := rangeItems env rest
      ⟨r.calls ++ r'.calls, r'.outcome⟩

/-- What `httpClient.Do` hands back when it returns no error: the status code
and what `decoder.Decode(&services)` makes of the body (`.error` is a decoding
error). -/
structure HttpResponse where
  StatusCode : Int
  Body : Except String Services

/-- One iteration of the `for` loop of `main`, given the outcome of
`httpClient.Do(httpRequest)` (`.error` is a transport error). The outcome
`.done` means that `time.Sleep` is reached. -/
def pollCycle (env : Env) (fetch : Except String HttpResponse) : Step :=
  match fetch with
  | .error _ => ⟨[], .fatal "Failed to list services: %v"⟩
  | .ok httpResponse =>
    if httpResponse.StatusCode ≠ 200 then
      ⟨[], .fatal "Bad response status: %d"⟩
    else
      match httpResponse.Body with
      | .error _ => ⟨[], .fatal "Failed to decode json: %v"⟩
      | .ok services => rangeItems env services.Items

/-- The `ChangeResourceRecordSets` requests among the recorded calls. -/
def mutationCalls (calls : List Call) : List ChangeResourceRecordSetsInput :=
  calls.filterMap fun c =>
    match c with
    | .changeResourceRecordSets input => some input
    | _ => none

/-- The service gets past the tests on its ingress list (lines 121-128) and
on its domain annotation (lines 132-135): the body goes on to read `TLD`. -/
def passesShapeTests (s : Service) : Bool :=
  !decide (s.Status.LoadBalancer.Ingress.length < 1) &&
    !decide (s.Status.LoadBalancer.Ingress.length < 1) &&
    !decide (s.Metadata.Annotations.DomainName.length < 1)

/-- The service gets as far as the zone lookup: it gets past the tests on its
shape, and its load-balancer lookup is answered, without error, by exactly one
description (lines 143-162). -/
def reachesZoneLookup (env : Env) (s : Service) : Bool :=
  passesShapeTests s &&
    match s.Status.LoadBalancer.Ingress[0]? with
    | none => false
    | some i0 =>
      match (Split i0.Hostname '-')[0]? with
      | none => false
      | some elbName =>
        match env.DescribeLoadBalancers ⟨[elbName]⟩ with
        | .error _ => false
        | .ok resp =>
          !decide (resp.LoadBalancerDescriptions.length < 1) &&
            !decide (resp.LoadBalancerDescriptions.length > 1)

/-- The zone lookup for `TLD` is answered, without error, by a list whose first
zone has a nil `Name`, or has the name `tld + "."` and a nil `Id`: the pointer
that line 180 or line 184 dereferences is nil. -/
def zoneAnswerLacksField (env : Env) : Bool :=
  match env.ListHostedZonesByName ⟨env.TLD⟩ with
  | .error _ => false
  | .ok hzOut =>
    match hzOut.HostedZones[0]? with
    | none => false
    | some z0 =>
      match z0.Name with
      | none => true
      | some name =>
        if name ≠ env.TLD ++ "." then false
        else
          match z0.Id with
          | none => true
          | some _ => false

/-- The catalog fetch fails (lines 100-115): a transport error, a status other
than 200, or a body that does not decode. -/
def fetchFails : Except String HttpResponse → Bool
  | .error _ => true
  | .ok httpResponse =>
    httpResponse.StatusCode != 200 ||
      match httpResponse.Body with
      | .error _ => true
      | .ok _ => false

/-- The decoded catalog of a fetch, empty when there is none. -/
def fetchedItems : Except String HttpResponse → List Service
  | .ok ⟨_, .ok services⟩ => services.Items
  | _ => []

/-- A fetch that succeeds with the catalog `items`. -/
def fetched (items : List Service) : Except String HttpResponse :=
  .ok ⟨200, .ok ⟨items⟩⟩

/-- A service with the given name, domain annotation and ingress hostnames. -/
def mkService (name domain : String) (hostnames : List String) : Service :=
  ⟨⟨⟨domain⟩, name⟩, ⟨⟨hostnames.map Ingress.mk⟩⟩⟩

/-! ## The record store of the DNS provider -/

/-- A record of the store is found by zone id, record name and record type. -/
abbrev RecordKey := String × String × String

/-- Modelled from the spec: the provider's record store, which is not part of
the repository. It is a map from (zone id, record name, record type) to the
alias target of the record. -/
abbrev DnsState := RecordKey → Option AliasTarget

/-- Modelled from the spec: one change applied to the store. An `UPSERT`
creates the record or replaces it in place; the program submits no other
action, and any other is left without effect here. -/
def applyChange (zoneId : String) (st : DnsState) (c : Change) : DnsState :=
  if c.Action = "UPSERT" then
    fun k =>
      if k = (zoneId, c.ResourceRecordSet.Name, c.ResourceRecordSet.Type_) then
        some c.ResourceRecordSet.AliasTarget
      else st k
  else st

/-- The effect of one recorded call on the store: a `ChangeResourceRecordSets`
request that the provider accepts applies its batch, a refused one and the two
lookups change nothing. -/
def applyCall (env : Env) (st : DnsState) : Call → DnsState
  | .changeResourceRecordSets input =>
    match env.ChangeResourceRecordSets input with
    | .ok _ => input.ChangeBatch.Changes.foldl (applyChange input.HostedZoneId) st
    | .error _ => st
  | _ => st

/-- The store after the loop body has run for the service `s`. -/
def applyStep (env : Env) (s : Service) (st : DnsState) : DnsState :=
  (loopBody env s).calls.foldl (applyCall env) st

/-! ## Concrete scenarios -/

/-- The service "web" of the end-to-end scenario. -/
def webService : Service :=
  mkService "web" "web.example.com" ["elbname-123.us-east-1.elb.amazonaws.com"]

/-- The provider of the end-to-end scenario: one load balancer, whose
hosted-zone id is "/hostedzone/ZXYZ", and the single zone "example.com." with
id "/hostedzone/ZABC". -/
def webEnv : Env where
  TLD := "example.com"
  DescribeLoadBalancers := fun _ => .ok ⟨[⟨some "/hostedzone/ZXYZ"⟩]⟩
  ListHostedZonesByName := fun _ => .ok ⟨[⟨some "example.com.", some "/hostedzone/ZABC"⟩]⟩
  ChangeResourceRecordSets := fun _ => .ok ()

/-- The request built for `domain`, `hn`, the load balancer's `hzId` and the
zone `zoneId` (lines 188-209). -/
def upsertRequest (domain hn : String) (hzId : Option String) (zoneId : String) :
    ChangeResourceRecordSetsInput :=
  ⟨⟨[⟨"UPSERT", ⟨⟨hn, false, hzId⟩, domain, "A"⟩⟩], "Kubernetes Update to Service"⟩, zoneId⟩

/-- A service with two ingress hostnames. -/
def twoIngressService : Service :=
  mkService "web" "web.example.com"
    ["elbname-123.us-east-1.elb.amazonaws.com", "other-456.us-east-1.elb.amazonaws.com"]

/-- A service whose only ingress entry has an empty hostname (an entry that
carries an IP address only decodes to this). -/
def emptyHostnameService : Service :=
  mkService "web" "web.example.com" [""]

/-- A provider whose load balancer description carries an empty hosted-zone
id. -/
def emptyZoneIdEnv : Env where
  TLD := "example.com"
  DescribeLoadBalancers := fun _ => .ok ⟨[⟨some ""⟩]⟩
  ListHostedZonesByName := fun _ => .ok ⟨[⟨some "example.com.", some "/hostedzone/ZABC"⟩]⟩
  ChangeResourceRecordSets := fun _ => .ok ()

/-- A provider that answers the zone lookup with a parent zone first and the
exact zone second. -/
def parentZoneFirstEnv : Env where
  TLD := "example.com"
  DescribeLoadBalancers := fun _ => .ok ⟨[⟨some "ZXYZ"⟩]⟩
  ListHostedZonesByName := fun _ =>
    .ok ⟨[⟨some "com.", some "/hostedzone/ZPARENT"⟩, ⟨some "example.com.", some "/hostedzone/ZABC"⟩]⟩
  ChangeResourceRecordSets := fun _ => .ok ()

/-- A provider that knows the load balancers "lba" and "lbc" and no other. -/
def isolationEnv : Env where
  TLD := "example.com"
  DescribeLoadBalancers := fun input =>
    if input.LoadBalancerNames = ["lba"] then .ok ⟨[⟨some "ZA"⟩]⟩
    else if input.LoadBalancerNames = ["lbc"] then .ok ⟨[⟨some "ZC"⟩]⟩
    else .ok ⟨[]⟩
  ListHostedZonesByName := fun _ => .ok ⟨[⟨some "example.com.", some "/hostedzone/ZABC"⟩]⟩
  ChangeResourceRecordSets := fun _ => .ok ()

/-- Three services, on the load balancers "lba", "lbb" and "lbc". -/
def serviceA : Service := mkService "a" "a.example.com" ["lba-1.elb.amazonaws.com"]

def serviceB : Service := mkService "b" "b.example.com" ["lbb-2.elb.amazonaws.com"]

def serviceC : Service := mkService "c" "c.example.com" ["lbc-3.elb.amazonaws.com"]

/-- A service on the load balancer "abcd1234". -/
def elbService : Service :=
  mkService "web" "web.example.com" ["abcd1234-1234567890.region.elb.example.com"]

/-- A provider whose zone "example.com." has the id "/hostedzone/ABC123". -/
def abcZoneEnv : Env where
  TLD := "example.com"
  DescribeLoadBalancers := fun _ => .ok ⟨[⟨some "ZXYZ"⟩]⟩
  ListHostedZonesByName := fun _ => .ok ⟨[⟨some "example.com.", some "/hostedzone/ABC123"⟩]⟩
  ChangeResourceRecordSets := fun _ => .ok ()

/-- The empty record store. -/
def emptyDns : DnsState := fun _ => none

/-- A provider whose zone lookup is answered by a zone that carries an id and
no name. -/
def namelessZoneEnv : Env where
  TLD := "example.com"
  DescribeLoadBalancers := fun _ => .ok ⟨[⟨some "ZXYZ"⟩]⟩
  ListHostedZonesByName := fun _ => .ok ⟨[⟨none, some "/hostedzone/ZABC"⟩]⟩
  ChangeResourceRecordSets := fun _ => .ok ()

/-- The provider of the end-to-end scenario with no `TLD` in the
environment. -/
def noTldEnv : Env := { webEnv with TLD := "" }

/-! ## Facts about `strings.Split` -/

theorem splitChars_ne_nil (sep : Char) (l : List Char) : splitChars sep l ≠ [] := by
  cases l with
  | nil => simp [splitChars]
  | cons c cs =>
    simp only [splitChars]
    split
    · simp
    · split <;> simp

/-- The first piece is what stands before the first separator. -/
theorem splitChars_head (sep : Char) (l : List Char) :
    ∃ tail, splitChars sep l = beforeFirst sep l :: tail := by
  induction l with
  | nil => exact ⟨[], by simp [splitChars, beforeFirst]⟩
  | cons c cs ih =>
    obtain ⟨tail, ht⟩ := ih
    by_cases h : c = sep
    · exact ⟨splitChars sep cs, by simp [splitChars, beforeFirst, h]⟩
    · refine ⟨tail, ?_⟩
      simp only [beforeFirst] at ht
      simp [splitChars, beforeFirst, h, ht]

theorem beforeFirst_no_sep (sep : Char) (l : List Char) : sep ∉ beforeFirst sep l := by
  intro hmem
  have := List.mem_takeWhile_imp hmem
  simp at this

/-- The part before the first separator is the whole input, or is followed in
the input by a separator. -/
theorem beforeFirst_shape (sep : Char) (l : List Char) :
    l = beforeFirst sep l ∨ ∃ rest, l = beforeFirst sep l ++ sep :: rest := by
  induction l with
  | nil => exact Or.inl (by simp [beforeFirst])
  | cons c cs ih =>
    by_cases h : c = sep
    · exact Or.inr ⟨cs, by simp [beforeFirst, h]⟩
    · rcases ih with ih | ⟨rest, ih⟩
      · refine Or.inl ?_
        simp only [beforeFirst] at ih
        simp [beforeFirst, h, ← ih]
      · refine Or.inr ⟨rest, ?_⟩
        simp only [beforeFirst] at ih
        simp [beforeFirst, h, ← ih]

/-- The last piece holds no separator, and is either the whole input (then the
only piece) or what follows a separator of the input. -/
theorem splitChars_last (sep : Char) (l : List Char) :
    ∃ init last, splitChars sep l = init ++ [last] ∧ sep ∉ last ∧
      ((init = [] ∧ l = last) ∨ (init ≠ [] ∧ ∃ pre, l = pre ++ sep :: last)) := by
  induction l with
  | nil => exact ⟨[], [], by simp [splitChars]⟩
  | cons c cs ih =>
    obtain ⟨init, last, hs, hno, hshape⟩ := ih
    by_cases h : c = sep
    · subst h
      refine ⟨[] :: init, last, by simp [splitChars, hs], hno, Or.inr ⟨by simp, ?_⟩⟩
      rcases hshape with ⟨_, hl⟩ | ⟨_, pre, hl⟩
      · exact ⟨[], by simp [hl]⟩
      · exact ⟨c :: pre, by simp [hl]⟩
    · rcases hshape with ⟨hi, hl⟩ | ⟨hi, pre, hl⟩
      · subst hi
        refine ⟨[], c :: last, by simp [splitChars, h, hs], ?_, Or.inl ⟨rfl, by simp [hl]⟩⟩
        simp only [List.mem_cons, not_or]
        exact ⟨fun e => h e.symm, hno⟩
      · cases init with
        | nil => exact absurd rfl hi
        | cons i0 irest =>
          refine ⟨(c :: i0) :: irest, last, by simp [splitChars, h, hs], hno,
            Or.inr ⟨by simp, c :: pre, by simp [hl]⟩⟩

theorem Split_head (s : String) (sep : Char) :
    (Split s sep)[0]? = some (String.mk (beforeFirst sep s.data)) := by
  obtain ⟨tail, ht⟩ := splitChars_head sep s.data
  simp [Split, ht]

theorem Split_last (s : String) (sep : Char) :
    ∃ init last, splitChars sep s.data = init ++ [last] ∧
      (Split s sep)[(Split s sep).length - 1]? = some (String.mk last) := by
  obtain ⟨init, last, hs, -, -⟩ := splitChars_last sep s.data
  refine ⟨init, last, hs, ?_⟩
  simp [Split, hs]

theorem length_lt_one_iff (s : String) : s.length < 1 ↔ s = "" := by
  rcases s with ⟨l⟩
  cases l with
  | nil => simp
  | cons c cs =>
    simp only [String.length, List.length_cons]
    constructor
    · intro h; omega
    · intro h; exact absurd (congrArg String.data h) (by simp)

theorem Split_length_pos (s : String) (sep : Char) : 0 < (Split s sep).length := by
  have := splitChars_ne_nil sep s.data
  simp only [Split, List.length_map]
  exact List.length_pos.mpr this

theorem Split_last_index (s : String) (sep : Char) :
    ((Split s sep).length ≤ (Split s sep).length - 1) ↔ False := by
  have := Split_length_pos s sep
  constructor
  · intro h; omega
  · exact False.elim

/-- With a TLD, the loop body ends in a panic exactly when the service gets as
far as the zone lookup and the answer's first zone lacks the field that is
dereferenced; otherwise it ends at its end or in a `continue`. -/
theorem loopBody_outcome (env : Env) (s : Service) (ht : env.TLD ≠ "") :
    if reachesZoneLookup env s = true ∧ zoneAnswerLacksField env = true then
      (loopBody env s).outcome = .panic
    else
      ((loopBody env s).outcome = .done ∨ ∃ w, (loopBody env s).outcome = .skip w) := by
  unfold loopBody reachesZoneLookup zoneAnswerLacksField passesShapeTests
  rcases hi : s.Status.LoadBalancer.Ingress with _ | ⟨i0, irest⟩
  · simp
  have h1 : ¬ (irest.length + 1 < 1) := by omega
  simp only [List.length_cons, List.getElem?_cons_zero, Split_head, h1, ht, if_false]
  by_cases hd : s.Metadata.Annotations.DomainName.length < 1
  · simp [hd]
  simp only [hd, if_false]
  rcases hlb : env.DescribeLoadBalancers
      ⟨[String.mk (beforeFirst '-' i0.Hostname.data)]⟩ with e | ⟨descs⟩
  · simp
  rcases descs with _ | ⟨d0, _ | ⟨d1, drest⟩⟩
  · simp
  swap
  · simp
  simp only [List.length_cons, List.length_nil, List.getElem?_cons_zero]
  rcases hz : env.ListHostedZonesByName ⟨env.TLD⟩ with e | ⟨zones⟩
  · simp
  rcases zones with _ | ⟨⟨name, id⟩, zrest⟩
  · simp
  have h2 : ¬ (zrest.length + 1 < 1) := by omega
  simp only [List.length_cons, List.getElem?_cons_zero, h2, if_false]
  cases name with
  | none => simp
  | some name =>
    by_cases hn : name ≠ env.TLD ++ "."
    · simp [hn]
    cases id with
    | none => simp [hn]
    | some id =>
      obtain ⟨init, last, -, hlast⟩ := Split_last id '/'
      simp only [hn, if_false, hlast]
      generalize env.ChangeResourceRecordSets _ = r
      cases r <;> simp

theorem loopBody_no_tld (env : Env) (s : Service) (ht : env.TLD = "") :
    (loopBody env s).calls = [] ∧
      (if s.Status.LoadBalancer.Ingress.length < 1 ∨ s.Metadata.Annotations.DomainName.length < 1
        then ∃ w, (loopBody env s).outcome = .skip w
        else (loopBody env s).outcome = .fatal "Please provide tld") := by
  unfold loopBody
  simp only [Split_head, ht, if_true]
  repeat' split
  all_goals simp_all

/-! ## What the loop body does -/

theorem loopBody_mutation (env : Env) (s : Service) (inp : ChangeResourceRecordSetsInput)
    (h : Call.changeResourceRecordSets inp ∈ (loopBody env s).calls) :
    ∃ i0 irest d0 zoneId zrest init last,
      s.Status.LoadBalancer.Ingress = i0 :: irest ∧
      s.Metadata.Annotations.DomainName ≠ "" ∧
      env.TLD ≠ "" ∧
      env.DescribeLoadBalancers
        ⟨[String.mk (beforeFirst '-' i0.Hostname.data)]⟩ = .ok ⟨[d0]⟩ ∧
      env.ListHostedZonesByName ⟨env.TLD⟩ =
        .ok ⟨⟨some (env.TLD ++ "."), some zoneId⟩ :: zrest⟩ ∧
      splitChars '/' zoneId.data = init ++ [last] ∧
      inp = ⟨⟨[⟨"UPSERT", ⟨⟨i0.Hostname, false, d0.CanonicalHostedZoneNameID⟩,
                s.Metadata.Annotations.DomainName, "A"⟩⟩],
              "Kubernetes Update to Service"⟩, String.mk last⟩ ∧
      (loopBody env s).calls =
        [.describeLoadBalancers
            ⟨[String.mk (beforeFirst '-' i0.Hostname.data)]⟩,
          .listHostedZonesByName ⟨env.TLD⟩, .changeResourceRecordSets inp] := by
  unfold loopBody at h ⊢
  rcases hi : s.Status.LoadBalancer.Ingress with _ | ⟨i0, irest⟩
  · simp [hi] at h
  simp only [hi, List.length_cons, List.getElem?_cons_zero, Split_head] at h ⊢
  have h1 : ¬ (irest.length + 1 < 1) := by omega
  simp only [h1, if_false] at h ⊢
  by_cases hd : s.Metadata.Annotations.DomainName.length < 1
  · simp [hd] at h
  by_cases ht : env.TLD = ""
  · simp [hd, ht] at h
  simp only [hd, ht, if_false] at h ⊢
  rcases hlb : env.DescribeLoadBalancers
      ⟨[String.mk (beforeFirst '-' i0.Hostname.data)]⟩ with e | ⟨descs⟩
  · simp [hlb] at h
  simp only [hlb] at h ⊢
  rcases descs with _ | ⟨d0, _ | ⟨d1, drest⟩⟩
  · simp at h
  swap
  · simp at h
  simp only [List.length_cons, List.length_nil, List.getElem?_cons_zero] at h ⊢
  rcases hz : env.ListHostedZonesByName ⟨env.TLD⟩ with e | ⟨zones⟩
  · simp [hz] at h
  simp only [hz] at h ⊢
  rcases zones with _ | ⟨⟨name, id⟩, zrest⟩
  · simp at h
  simp only [List.length_cons, List.getElem?_cons_zero] at h ⊢
  have h2 : ¬ (zrest.length + 1 < 1) := by omega
  simp only [h2, if_false] at h ⊢
  cases name with
  | none => simp at h
  | some name =>
  by_cases hn : name ≠ env.TLD ++ "."
  · simp [hn] at h
  cases id with
  | none => simp [hn] at h
  | some zoneId =>
  have hname : name = env.TLD ++ "." := not_not.mp hn
  subst hname
  obtain ⟨init, last, hsplit, hlast⟩ := Split_last zoneId '/'
  simp only [hn, if_false, hlast] at h ⊢
  have hinp : inp = ⟨⟨[⟨"UPSERT", ⟨⟨i0.Hostname, false, d0.CanonicalHostedZoneNameID⟩,
                s.Metadata.Annotations.DomainName, "A"⟩⟩],
              "Kubernetes Update to Service"⟩, String.mk last⟩ := by
    generalize env.ChangeResourceRecordSets _ = r at h
    cases r <;> simpa using h
  refine ⟨i0, irest, d0, zoneId, zrest, init, last, rfl, ?_, ht, hlb, rfl, hsplit, hinp, ?_⟩
  · intro hd0
    exact hd (by simp [hd0])
  · subst hinp
    generalize env.ChangeResourceRecordSets _ = r
    cases r <;> simp

theorem loopBody_lookup (env : Env) (s : Service) (inp : DescribeLoadBalancersInput)
    (h : Call.describeLoadBalancers inp ∈ (loopBody env s).calls) :
    ∃ i0 irest, s.Status.LoadBalancer.Ingress = i0 :: irest ∧
      inp = ⟨[String.mk (beforeFirst '-' i0.Hostname.data)]⟩ := by
  unfold loopBody at h
  rcases hi : s.Status.LoadBalancer.Ingress with _ | ⟨i0, irest⟩
  · simp [hi] at h
  refine ⟨i0, irest, rfl, ?_⟩
  simp only [hi, List.length_cons, List.getElem?_cons_zero, Split_head] at h
  repeat' split at h
  all_goals simp_all

theorem loopBody_passes_iff (s : Service) :
    passesShapeTests s = true ↔
      ¬ (s.Status.LoadBalancer.Ingress.length < 1 ∨
          s.Metadata.Annotations.DomainName.length < 1) := by
  simp [passesShapeTests]

/-- With a TLD, the loop over the catalog ends in a panic when some service
gets as far as the zone lookup and the answer's first zone lacks the field
that is dereferenced; otherwise it runs the body for every service, in order,
and ends at its end. -/
theorem rangeItems_tld (env : Env) (ht : env.TLD ≠ "") (items : List Service) :
    if (∃ s ∈ items, reachesZoneLookup env s = true) ∧ zoneAnswerLacksField env = true then
      (rangeItems env items).outcome = .panic
    else
      ((rangeItems env items).outcome = .done ∧
        (rangeItems env items).calls = items.flatMap fun s => (loopBody env s).calls) := by
  induction items with
  | nil => simp [rangeItems]
  | cons s rest ih =>
    have ho := loopBody_outcome env s ht
    by_cases hc : reachesZoneLookup env s = true ∧ zoneAnswerLacksField env = true
    · rw [if_pos hc] at ho
      have hex : (∃ x ∈ s :: rest, reachesZoneLookup env x = true) ∧
          zoneAnswerLacksField env = true :=
        ⟨⟨s, List.mem_cons_self _ _, hc.1⟩, hc.2⟩
      rw [if_pos hex]
      simp [rangeItems, ho]
    · rw [if_neg hc] at ho
      have hiff : ((∃ x ∈ s :: rest, reachesZoneLookup env x = true) ∧
          zoneAnswerLacksField env = true) ↔
          ((∃ x ∈ rest, reachesZoneLookup env x = true) ∧
            zoneAnswerLacksField env = true) := by
        constructor
        · rintro ⟨⟨x, hx, hr⟩, hl⟩
          rcases List.mem_cons.mp hx with hx | hx
          · subst hx
            exact absurd ⟨hr, hl⟩ hc
          · exact ⟨⟨x, hx, hr⟩, hl⟩
        · rintro ⟨⟨x, hx, hr⟩, hl⟩
          exact ⟨⟨x, List.mem_cons_of_mem _ hx, hr⟩, hl⟩
      simp only [hiff]
      by_cases hrest : (∃ x ∈ rest, reachesZoneLookup env x = true) ∧
          zoneAnswerLacksField env = true
      · rw [if_pos hrest] at ih ⊢
        rcases ho with ho | ⟨w, ho⟩ <;> simp [rangeItems, ho, ih]
      · rw [if_neg hrest] at ih ⊢
        rcases ho with ho | ⟨w, ho⟩ <;> simp [rangeItems, ho, ih]

theorem rangeItems_no_tld (env : Env) (ht : env.TLD = "") (items : List Service) :
    (rangeItems env items).calls = [] ∧
      (if ∃ s ∈ items, passesShapeTests s = true
        then (rangeItems env items).outcome = .fatal "Please provide tld"
        else (rangeItems env items).outcome = .done) := by
  induction items with
  | nil => simp [rangeItems]
  | cons s rest ih =>
    obtain ⟨hc, ho⟩ := loopBody_no_tld env s ht
    by_cases hp : passesShapeTests s = true
    · have hp2 := (loopBody_passes_iff s).mp hp
      rw [if_neg hp2] at ho
      simp [rangeItems, hc, ho, hp]
    · have hp2 : s.Status.LoadBalancer.Ingress.length < 1 ∨
          s.Metadata.Annotations.DomainName.length < 1 := by
        by_contra hcon
        exact hp ((loopBody_passes_iff s).mpr hcon)
      rw [if_pos hp2] at ho
      obtain ⟨w, ho⟩ := ho
      simp only [rangeItems, ho, hc, List.nil_append, ih.1, true_and]
      have hex : (∃ x ∈ s :: rest, passesShapeTests x = true) ↔
          ∃ x ∈ rest, passesShapeTests x = true := by
        simp [hp]
      simp only [hex]
      exact ih.2

theorem mem_mutationCalls (calls : List Call) (inp : ChangeResourceRecordSetsInput) :
    inp ∈ mutationCalls calls ↔ Call.changeResourceRecordSets inp ∈ calls := by
  simp only [mutationCalls, List.mem_filterMap]
  constructor
  · rintro ⟨c, hc, hm⟩
    cases c <;> simp_all
  · intro h
    exact ⟨_, h, rfl⟩

theorem mutationCalls_append (xs ys : List Call) :
    mutationCalls (xs ++ ys) = mutationCalls xs ++ mutationCalls ys := by
  simp [mutationCalls]

/-- When all the tests pass, the loop body makes the two lookups and submits
one request, against the last piece of the zone's id. -/
theorem loopBody_resolved (env : Env) (s : Service) (i0 : Ingress) (irest : List Ingress)
    (d0 : LoadBalancerDescription) (zoneId : String) (zrest : List HostedZone)
    (hi : s.Status.LoadBalancer.Ingress = i0 :: irest)
    (hd : s.Metadata.Annotations.DomainName ≠ "")
    (ht : env.TLD ≠ "")
    (hlb : env.DescribeLoadBalancers ⟨[String.mk (beforeFirst '-' i0.Hostname.data)]⟩ =
      .ok ⟨[d0]⟩)
    (hz : env.ListHostedZonesByName ⟨env.TLD⟩ =
      .ok ⟨⟨some (env.TLD ++ "."), some zoneId⟩ :: zrest⟩) :
    ∃ init last, splitChars '/' zoneId.data = init ++ [last] ∧
      (loopBody env s).calls =
        [.describeLoadBalancers ⟨[String.mk (beforeFirst '-' i0.Hostname.data)]⟩,
          .listHostedZonesByName ⟨env.TLD⟩,
          .changeResourceRecordSets
            (upsertRequest s.Metadata.Annotations.DomainName i0.Hostname
              d0.CanonicalHostedZoneNameID (String.mk last))] := by
  obtain ⟨init, last, hsplit, hlast⟩ := Split_last zoneId '/'
  refine ⟨init, last, hsplit, ?_⟩
  have hd2 : ¬ s.Metadata.Annotations.DomainName.length < 1 := by
    rw [length_lt_one_iff]; exact hd
  have hn : ¬ (env.TLD ++ "." ≠ env.TLD ++ ".") := by simp
  unfold loopBody
  simp only [hi, List.length_cons, List.getElem?_cons_zero, Split_head, hd2, ht, hlb, hz,
    List.length_nil, hn, hlast, upsertRequest]
  generalize env.ChangeResourceRecordSets _ = r
  cases r <;> simp

/-- A request is submitted only when the zone answer's first zone carries both
its name and its id. -/
theorem zoneAnswer_of_mutation (env : Env) (s : Service)
    (inp : ChangeResourceRecordSetsInput)
    (h : Call.changeResourceRecordSets inp ∈ (loopBody env s).calls) :
    zoneAnswerLacksField env = false := by
  obtain ⟨i0, irest, d0, zoneId, zrest, init, last, -, -, -, -, hz, -⟩ :=
    loopBody_mutation env s inp h
  simp [zoneAnswerLacksField, hz]

theorem splitChars_last_eq (sep : Char) (l : List Char) (init pieces : List (List Char))
    (last piece : List Char) (h : splitChars sep l = init ++ [last])
    (h2 : splitChars sep l = pieces ++ [piece]) : last = piece := by
  rw [h] at h2
  exact (List.append_inj' h2 rfl).2 |> List.singleton_inj.mp


theorem pollCycle_fetched (env : Env) (items : List Service) :
    pollCycle env (fetched items) = rangeItems env items := by
  simp [pollCycle, fetched]

theorem rangeItems_single (env : Env) (s : Service) :
    (rangeItems env [s]).calls = (loopBody env s).calls := by
  simp only [rangeItems]
  split <;> simp

theorem mutationCalls_flatMap (items : List Service) (f : Service → List Call) :
    mutationCalls (items.flatMap f) = items.flatMap fun s => mutationCalls (f s) := by
  induction items with
  | nil => rfl
  | cons s rest ih => simp [List.flatMap_cons, mutationCalls_append, ih]

theorem foldl_applyCall_lookups (env : Env) (calls : List Call) (st : DnsState)
    (h : ∀ inp, Call.changeResourceRecordSets inp ∉ calls) :
    calls.foldl (applyCall env) st = st := by
  induction calls generalizing st with
  | nil => rfl
  | cons c cs ih =>
    have hcs : ∀ inp, Call.changeResourceRecordSets inp ∉ cs := fun inp hm =>
      h inp (List.mem_cons_of_mem _ hm)
    cases c with
    | changeResourceRecordSets inp => exact absurd (List.mem_cons_self _ _) (h inp)
    | describeLoadBalancers inp => simpa [applyCall] using ih st hcs
    | listHostedZonesByName inp => simpa [applyCall] using ih st hcs

theorem applyChange_idem (zoneId : String) (st : DnsState) (c : Change) :
    applyChange zoneId (applyChange zoneId st c) c = applyChange zoneId st c := by
  unfold applyChange
  split
  · funext k
    by_cases hk : k = (zoneId, c.ResourceRecordSet.Name, c.ResourceRecordSet.Type_)
    · simp [hk]
    · simp [hk]
  · rfl

theorem mem_rangeItems_calls (env : Env) (items : List Service) (c : Call)
    (h : c ∈ (rangeItems env items).calls) : ∃ s ∈ items, c ∈ (loopBody env s).calls := by
  induction items with
  | nil => simp [rangeItems] at h
  | cons s rest ih =>
    simp only [rangeItems] at h
    split at h
    · exact ⟨s, List.mem_cons_self _ _, h⟩
    · exact ⟨s, List.mem_cons_self _ _, h⟩
    · rcases List.mem_append.mp h with h | h
      · exact ⟨s, List.mem_cons_self _ _, h⟩
      · obtain ⟨t, ht, hc⟩ := ih h
        exact ⟨t, List.mem_cons_of_mem _ ht, hc⟩

theorem mem_pollCycle_calls (env : Env) (fetch : Except String HttpResponse) (c : Call)
    (h : c ∈ (pollCycle env fetch).calls) :
    ∃ s ∈ fetchedItems fetch, c ∈ (loopBody env s).calls := by
  rcases fetch with e | ⟨status, body⟩
  · simp [pollCycle] at h
  by_cases hs : status = 200
  swap
  · simp [pollCycle, hs] at h
  rcases body with e | ⟨⟨items⟩⟩
  · simp [pollCycle, hs] at h
  simp only [pollCycle, hs, ne_eq, not_true_eq_false, if_false] at h
  exact mem_rangeItems_calls env items c h

/-- With a TLD, the mutation calls of the loop over the catalog are, in order,
those of the loop body for each service. When the zone answer makes the body
panic, no service gets a mutation call, in the loop or on its own. -/
theorem mutationCalls_rangeItems (env : Env) (ht : env.TLD ≠ "") (items : List Service) :
    mutationCalls (rangeItems env items).calls =
      items.flatMap fun s => mutationCalls (loopBody env s).calls := by
  by_cases hl : zoneAnswerLacksField env = true
  · have hnone : ∀ s, mutationCalls (loopBody env s).calls = [] := by
      intro s
      apply List.eq_nil_iff_forall_not_mem.mpr
      intro inp hmem
      have := zoneAnswer_of_mutation env s inp ((mem_mutationCalls _ _).mp hmem)
      rw [this] at hl
      cases hl
    have hlhs : mutationCalls (rangeItems env items).calls = [] := by
      apply List.eq_nil_iff_forall_not_mem.mpr
      intro inp hmem
      obtain ⟨s, -, hs⟩ := mem_rangeItems_calls env items _ ((mem_mutationCalls _ _).mp hmem)
      have := zoneAnswer_of_mutation env s inp hs
      rw [this] at hl
      cases hl
    rw [hlhs]
    simp [hnone]
  · have h := rangeItems_tld env ht items
    rw [if_neg (fun hc => hl hc.2)] at h
    rw [h.2, mutationCalls_flatMap]

theorem lookup_of_reaches (env : Env) (s : Service) (ht : env.TLD ≠ "")
    (h : reachesZoneLookup env s = true) :
    ∃ inp d, Call.describeLoadBalancers inp ∈ (loopBody env s).calls ∧
      env.DescribeLoadBalancers inp = .ok ⟨[d]⟩ := by
  unfold reachesZoneLookup passesShapeTests at h
  unfold loopBody
  rcases hi : s.Status.LoadBalancer.Ingress with _ | ⟨i0, irest⟩
  · simp [hi] at h
  have h1 : ¬ (irest.length + 1 < 1) := by omega
  simp only [hi, List.length_cons, List.getElem?_cons_zero, Split_head, h1, ht, if_false] at h ⊢
  by_cases hd : s.Metadata.Annotations.DomainName.length < 1
  · simp [hd] at h
  simp only [hd, if_false]
  rcases hlb : env.DescribeLoadBalancers
      ⟨[String.mk (beforeFirst '-' i0.Hostname.data)]⟩ with e | ⟨descs⟩
  · simp [hlb] at h
  rcases descs with _ | ⟨d0, _ | ⟨d1, drest⟩⟩
  · simp [hlb] at h
  swap
  · simp [hlb] at h
  refine ⟨⟨[String.mk (beforeFirst '-' i0.Hostname.data)]⟩, d0, ?_, hlb⟩
  simp only [List.length_cons, List.length_nil, List.getElem?_cons_zero]
  repeat' split
  all_goals simp

theorem skip_of_not_reaches (env : Env) (s : Service) (ht : env.TLD ≠ "")
    (h : reachesZoneLookup env s = false) :
    ∃ w, (loopBody env s).outcome = .skip w := by
  unfold reachesZoneLookup passesShapeTests at h
  unfold loopBody
  rcases hi : s.Status.LoadBalancer.Ingress with _ | ⟨i0, irest⟩
  · simp
  have h1 : ¬ (irest.length + 1 < 1) := by omega
  simp only [hi, List.length_cons, List.getElem?_cons_zero, Split_head, h1, ht, if_false] at h ⊢
  by_cases hd : s.Metadata.Annotations.DomainName.length < 1
  · simp [hd]
  simp only [hd, if_false]
  rcases hlb : env.DescribeLoadBalancers
      ⟨[String.mk (beforeFirst '-' i0.Hostname.data)]⟩ with e | ⟨descs⟩
  · simp
  rcases descs with _ | ⟨d0, _ | ⟨d1, drest⟩⟩
  · simp
  · simp [hlb, hd] at h
  · simp

/-! ## The claims -/

/-- The part of the actionability filter that the code has: a service with no
ingress hostname, or with an empty domain annotation, gets no mutation call. -/
theorem loopBody_skips_empty_shape (env : Env) (s : Service)
    (h : s.Status.LoadBalancer.Ingress = [] ∨ s.Metadata.Annotations.DomainName = "") :
    mutationCalls (loopBody env s).calls = [] := by
  apply List.eq_nil_iff_forall_not_mem.mpr
  intro inp hmem
  obtain ⟨i0, irest, d0, z0, zrest, init, last, hi, hd, -⟩ :=
    loopBody_mutation env s inp ((mem_mutationCalls _ _).mp hmem)
  rcases h with h | h
  · rw [h] at hi; cases hi
  · exact hd h

/-- C1, the code at the failing input: a service with two ingress hostnames and
a domain annotation is not skipped. The second test of the ingress list repeats
`len(ingress) < 1`, so the loop body goes on and submits an UPSERT that binds
the domain to the first of the two hostnames. -/
theorem C1_two_ingress_hostnames_upserted :
    twoIngressService.Status.LoadBalancer.Ingress.length = 2 ∧
      twoIngressService.Metadata.Annotations.DomainName = "web.example.com" ∧
      mutationCalls (loopBody webEnv twoIngressService).calls =
        [upsertRequest "web.example.com" "elbname-123.us-east-1.elb.amazonaws.com"
          (some "/hostedzone/ZXYZ") "ZABC"] := by
  decide

/-- C2 as stated fails: in the end-to-end scenario the one mutation call does
not carry the alias target hosted-zone id "ZXYZ". -/
theorem C2_alias_zone_id_not_stripped :
    webEnv.TLD = "example.com" ∧
      webEnv.DescribeLoadBalancers ⟨["elbname"]⟩ = .ok ⟨[⟨some "/hostedzone/ZXYZ"⟩]⟩ ∧
      webEnv.ListHostedZonesByName ⟨"example.com"⟩ =
        .ok ⟨[⟨some "example.com.", some "/hostedzone/ZABC"⟩]⟩ ∧
      mutationCalls (pollCycle webEnv (fetched [webService])).calls ≠
        [upsertRequest "web.example.com" "elbname-123.us-east-1.elb.amazonaws.com"
          (some "ZXYZ") "ZABC"] := by
  refine ⟨rfl, rfl, rfl, ?_⟩
  decide

/-- C2, amended: in the end-to-end scenario the cycle makes exactly one mutation
call, an UPSERT of the A alias record "web.example.com" whose alias target has
the ingress hostname, the load balancer's hosted-zone id as it was returned
("/hostedzone/ZXYZ") and health evaluation false, against the zone "ZABC". -/
theorem C2_end_to_end (env : Env)
    (htld : env.TLD = "example.com")
    (hlb : env.DescribeLoadBalancers ⟨["elbname"]⟩ = .ok ⟨[⟨some "/hostedzone/ZXYZ"⟩]⟩)
    (hz : env.ListHostedZonesByName ⟨"example.com"⟩ =
      .ok ⟨[⟨some "example.com.", some "/hostedzone/ZABC"⟩]⟩) :
    mutationCalls (pollCycle env (fetched [webService])).calls =
      [upsertRequest "web.example.com" "elbname-123.us-east-1.elb.amazonaws.com"
        (some "/hostedzone/ZXYZ") "ZABC"] := by
  have ht : env.TLD ≠ "" := by rw [htld]; decide
  have hname : (String.mk (beforeFirst '-' "elbname-123.us-east-1.elb.amazonaws.com".data)) =
      "elbname" := by decide
  obtain ⟨init, last, hsplit, hcalls⟩ :=
    loopBody_resolved env webService ⟨"elbname-123.us-east-1.elb.amazonaws.com"⟩ []
      ⟨some "/hostedzone/ZXYZ"⟩ "/hostedzone/ZABC" [] rfl (by decide) ht
      (by rw [hname]; exact hlb) (by rw [htld]; exact hz)
  have hlast : last = "ZABC".data :=
    splitChars_last_eq '/' _ init [[], "hostedzone".data] last _ hsplit (by decide)
  subst hlast
  have hr := rangeItems_single env webService
  show mutationCalls (rangeItems env [webService]).calls = _
  rw [hr, hcalls]
  rfl

/-- The end-to-end scenario is the provider `webEnv`. -/
theorem C2_end_to_end_witness :
    webEnv.TLD = "example.com" ∧
    webEnv.DescribeLoadBalancers ⟨["elbname"]⟩ = .ok ⟨[⟨some "/hostedzone/ZXYZ"⟩]⟩ ∧
    webEnv.ListHostedZonesByName ⟨"example.com"⟩ =
      .ok ⟨[⟨some "example.com.", some "/hostedzone/ZABC"⟩]⟩ ∧
    mutationCalls (pollCycle webEnv (fetched [webService])).calls =
      [upsertRequest "web.example.com" "elbname-123.us-east-1.elb.amazonaws.com"
        (some "/hostedzone/ZXYZ") "ZABC"] :=
  ⟨rfl, rfl, rfl, C2_end_to_end webEnv rfl rfl rfl⟩

/-- C3: when the first zone of the zone lookup's answer does not bear the name
`tld + "."` (or bears none), the loop body makes no mutation call, whatever the
service and whatever zones follow the first. -/
theorem C3_zone_match_strict (env : Env) (s : Service) (z : HostedZone)
    (zrest : List HostedZone)
    (hz : env.ListHostedZonesByName ⟨env.TLD⟩ = .ok ⟨z :: zrest⟩)
    (hname : z.Name ≠ some (env.TLD ++ ".")) :
    mutationCalls (loopBody env s).calls = [] := by
  apply List.eq_nil_iff_forall_not_mem.mpr
  intro inp hmem
  obtain ⟨i0, irest, d0, zoneId, zrest0, init, last, -, -, -, -, hz0, -⟩ :=
    loopBody_mutation env s inp ((mem_mutationCalls _ _).mp hmem)
  rw [hz] at hz0
  injection hz0 with hz0
  injection hz0 with hz0
  injection hz0 with hz1 hz2
  exact hname (by rw [hz1])

/-- A parent zone "com." comes first and the exact zone "example.com." second:
the service "web" is looked up and gets no mutation call. -/
theorem C3_zone_match_strict_witness :
    parentZoneFirstEnv.ListHostedZonesByName ⟨parentZoneFirstEnv.TLD⟩ =
        .ok ⟨[⟨some "com.", some "/hostedzone/ZPARENT"⟩, ⟨some "example.com.", some "/hostedzone/ZABC"⟩]⟩ ∧
      (loopBody parentZoneFirstEnv webService).calls =
        [.describeLoadBalancers ⟨["elbname"]⟩, .listHostedZonesByName ⟨"example.com"⟩] ∧
      mutationCalls (loopBody parentZoneFirstEnv webService).calls = [] :=
  ⟨rfl, by decide,
    C3_zone_match_strict parentZoneFirstEnv webService ⟨some "com.", some "/hostedzone/ZPARENT"⟩
      [⟨some "example.com.", some "/hostedzone/ZABC"⟩] rfl (by decide)⟩


/-- C4: with a non-empty TLD the mutation calls of a cycle are, in catalog
order, the calls that each service gets when it is the only service of the
catalog; the cycle reaches the sleep unless the zone answer's first zone lacks
a field that the body dereferences. In a catalog of three services whose
second service has its load-balancer lookups answered with no description, the
body of the second service ends in a `continue`, the second service gets no
mutation call, and the cycle's calls are those of the first service alone
followed by those of the third alone. -/
theorem C4_isolation (env : Env) (ht : env.TLD ≠ "") :
    (∀ items : List Service,
      mutationCalls (pollCycle env (fetched items)).calls =
        items.flatMap fun s => mutationCalls (pollCycle env (fetched [s])).calls) ∧
    (∀ items : List Service, zoneAnswerLacksField env = false →
      (pollCycle env (fetched items)).outcome = .done) ∧
    (∀ s1 s2 s3 : Service,
      (∀ inp, Call.describeLoadBalancers inp ∈ (loopBody env s2).calls →
        env.DescribeLoadBalancers inp = .ok ⟨[]⟩) →
      (∃ w, (loopBody env s2).outcome = .skip w) ∧
        mutationCalls (pollCycle env (fetched [s2])).calls = [] ∧
        mutationCalls (pollCycle env (fetched [s1, s2, s3])).calls =
          mutationCalls (pollCycle env (fetched [s1])).calls ++
            mutationCalls (pollCycle env (fetched [s3])).calls) := by
  have hall : ∀ items : List Service,
      mutationCalls (pollCycle env (fetched items)).calls =
        items.flatMap fun s => mutationCalls (pollCycle env (fetched [s])).calls := by
    intro items
    simp only [pollCycle_fetched, rangeItems_single]
    exact mutationCalls_rangeItems env ht items
  refine ⟨hall, ?_, ?_⟩
  · intro items hl
    have h := rangeItems_tld env ht items
    rw [if_neg (fun hc => by rw [hl] at hc; exact Bool.noConfusion hc.2)] at h
    rw [pollCycle_fetched]
    exact h.1
  intro s1 s2 s3 hnone
  have hreach : reachesZoneLookup env s2 = false := by
    by_contra hcon
    obtain ⟨inp, d, hmem, hd⟩ :=
      lookup_of_reaches env s2 ht (by simpa using hcon)
    rw [hnone inp hmem] at hd
    simp at hd
  have h2 : mutationCalls (pollCycle env (fetched [s2])).calls = [] := by
    rw [pollCycle_fetched, rangeItems_single]
    apply List.eq_nil_iff_forall_not_mem.mpr
    intro inp hmem
    obtain ⟨i0, irest, d0, zoneId, zrest, init, last, -, -, -, hlb, -, -, -, hcalls⟩ :=
      loopBody_mutation env s2 inp ((mem_mutationCalls _ _).mp hmem)
    have := hnone ⟨[String.mk (beforeFirst '-' i0.Hostname.data)]⟩ (by rw [hcalls]; simp)
    rw [hlb] at this
    simp at this
  refine ⟨skip_of_not_reaches env s2 ht hreach, h2, ?_⟩
  rw [hall [s1, s2, s3]]
  simp [List.flatMap_cons, h2]

/-- The load balancer "lbb" of the second service is unknown to the provider:
the cycle submits the UPSERT of the first service, then that of the third, and
reaches the sleep. -/
theorem C4_isolation_witness :
    isolationEnv.TLD ≠ "" ∧
      isolationEnv.DescribeLoadBalancers ⟨["lbb"]⟩ = .ok ⟨[]⟩ ∧
      (loopBody isolationEnv serviceB).calls = [.describeLoadBalancers ⟨["lbb"]⟩] ∧
      (pollCycle isolationEnv (fetched [serviceA, serviceB, serviceC])).outcome = .done ∧
      mutationCalls (pollCycle isolationEnv (fetched [serviceA, serviceB, serviceC])).calls =
        [upsertRequest "a.example.com" "lba-1.elb.amazonaws.com" (some "ZA") "ZABC",
          upsertRequest "c.example.com" "lbc-3.elb.amazonaws.com" (some "ZC") "ZABC"] := by
  have hb : (loopBody isolationEnv serviceB).calls = [.describeLoadBalancers ⟨["lbb"]⟩] := by
    decide
  have hC := C4_isolation isolationEnv (by decide)
  refine ⟨by decide, rfl, hb, hC.2.1 _ (by decide), ?_⟩
  have h := (hC.2.2 serviceA serviceB serviceC (by
    intro inp hmem
    rw [hb] at hmem
    simp only [List.mem_singleton, Call.describeLoadBalancers.injEq] at hmem
    subst hmem
    rfl)).2.2
  rw [h]
  decide

/-- C5 as stated fails: the fetch succeeds, the TLD is set, and the zone lookup
answers with a zone that has no name. The body of the first service makes its
two lookups and dereferences the nil name: the process ends in a panic, and
the second service is never reached. -/
theorem C5_nameless_zone_panics :
    pollCycle namelessZoneEnv (fetched [webService, webService]) =
        ⟨[.describeLoadBalancers ⟨["elbname"]⟩, .listHostedZonesByName ⟨"example.com"⟩],
          .panic⟩ ∧
      ¬ (fetchFails (fetched [webService, webService]) = true ∨
          (namelessZoneEnv.TLD = "" ∧
            ∃ s ∈ fetchedItems (fetched [webService, webService]),
              passesShapeTests s = true)) := by
  refine ⟨by decide, ?_⟩
  rintro (h | ⟨h, -⟩)
  · exact absurd h (by decide)
  · exact absurd h (by decide)

/-- C5, amended: a cycle ends at the sleep, in a fatal exit or in a panic. It
ends in a fatal exit exactly when the catalog fetch fails or the TLD is empty
and some service of the catalog gets past the ingress and domain tests. It
ends in a panic exactly when the fetch succeeds, the TLD is set, the zone
answer's first zone lacks its name (or bears the name `tld + "."` and lacks its
id) and some service gets as far as the zone lookup. A failed fetch is
followed by no AWS call at all. In every other case the cycle runs the loop
body for every service, in order, and reaches the sleep, whatever the three
AWS operations answer. -/
theorem C5_fatal_panic_or_recoverable (env : Env) (fetch : Except String HttpResponse) :
    ((pollCycle env fetch).outcome = .done ∨
      (∃ m, (pollCycle env fetch).outcome = .fatal m) ∨
      (pollCycle env fetch).outcome = .panic) ∧
    ((∃ m, (pollCycle env fetch).outcome = .fatal m) ↔
      (fetchFails fetch = true ∨
        (env.TLD = "" ∧ ∃ s ∈ fetchedItems fetch, passesShapeTests s = true))) ∧
    ((pollCycle env fetch).outcome = .panic ↔
      (fetchFails fetch = false ∧ env.TLD ≠ "" ∧ zoneAnswerLacksField env = true ∧
        ∃ s ∈ fetchedItems fetch, reachesZoneLookup env s = true)) ∧
    (fetchFails fetch = true → (pollCycle env fetch).calls = []) ∧
    (fetchFails fetch = false → env.TLD ≠ "" →
      ¬ (zoneAnswerLacksField env = true ∧
          ∃ s ∈ fetchedItems fetch, reachesZoneLookup env s = true) →
      (pollCycle env fetch).outcome = .done ∧
        (pollCycle env fetch).calls =
          (fetchedItems fetch).flatMap fun s => (loopBody env s).calls) := by
  rcases fetch with e | ⟨status, body⟩
  · simp [pollCycle, fetchFails]
  by_cases hs : status = 200
  swap
  · simp [pollCycle, fetchFails, hs]
  subst hs
  rcases body with e | ⟨⟨items⟩⟩
  · simp [pollCycle, fetchFails]
  simp only [pollCycle, fetchFails, fetchedItems, ne_eq, not_true_eq_false, if_false,
    bne_self_eq_false, Bool.or_self, Bool.false_eq_true, false_or, false_implies, true_implies,
    true_and]
  by_cases ht : env.TLD = ""
  · obtain ⟨hc, ho⟩ := rangeItems_no_tld env ht items
    by_cases hex : ∃ s ∈ items, passesShapeTests s = true
    · rw [if_pos hex] at ho
      simp [ho, ht, hex]
    · rw [if_neg hex] at ho
      simp [ho, ht, hex]
  · have ho := rangeItems_tld env ht items
    by_cases hc : (∃ s ∈ items, reachesZoneLookup env s = true) ∧
        zoneAnswerLacksField env = true
    · rw [if_pos hc] at ho
      simp [ho, ht, hc.1, hc.2]
    · rw [if_neg hc] at ho
      have hc2 : ¬ (zoneAnswerLacksField env = true ∧
          ∃ s ∈ items, reachesZoneLookup env s = true) := fun h => hc ⟨h.2, h.1⟩
      simp [ho.1, ho.2, ht, hc2]

/-- C6: on a record store where an UPSERT overwrites the entry of its (zone id,
record name, record type), running the loop body for a service twice in
succession, against the same provider answers, leaves the store in the state
that running it once does. It holds for every service, actionable or not. -/
theorem C6_upsert_idempotent (env : Env) (s : Service) (st : DnsState) :
    applyStep env s (applyStep env s st) = applyStep env s st := by
  by_cases h : ∃ inp, Call.changeResourceRecordSets inp ∈ (loopBody env s).calls
  · obtain ⟨inp, hmem⟩ := h
    obtain ⟨i0, irest, d0, zoneId, zrest, init, last, -, -, -, -, -, -, hinp, hcalls⟩ :=
      loopBody_mutation env s inp hmem
    simp only [applyStep, hcalls, List.foldl, applyCall]
    cases env.ChangeResourceRecordSets inp with
    | error e => rfl
    | ok u =>
      subst hinp
      simp only [List.foldl]
      exact applyChange_idem _ _ _
  · have hno : ∀ inp, Call.changeResourceRecordSets inp ∉ (loopBody env s).calls :=
      fun inp hm => h ⟨inp, hm⟩
    simp only [applyStep, foldl_applyCall_lookups env _ _ hno]

/-- The step of C6 is not the identity: run for the service "web" on the empty
store, it leaves the alias record of "web.example.com" in the zone "ZABC". -/
theorem applyStep_web :
    applyStep webEnv webService emptyDns ("ZABC", "web.example.com", "A") =
      some ⟨"elbname-123.us-east-1.elb.amazonaws.com", false, some "/hostedzone/ZXYZ"⟩ := by
  decide

/-- C7: every `ChangeResourceRecordSets` request of a cycle comes from a service
of the catalog and carries a batch of exactly one change: an "UPSERT" of a
record of type "A" named by the service's domain annotation, whose alias target
is the service's first ingress hostname with health evaluation false. -/
theorem C7_record_change_shape (env : Env) (fetch : Except String HttpResponse)
    (inp : ChangeResourceRecordSetsInput)
    (h : Call.changeResourceRecordSets inp ∈ (pollCycle env fetch).calls) :
    ∃ s ∈ fetchedItems fetch, ∃ change,
      inp.ChangeBatch.Changes = [change] ∧
      change.Action = "UPSERT" ∧
      change.ResourceRecordSet.Type_ = "A" ∧
      change.ResourceRecordSet.Name = s.Metadata.Annotations.DomainName ∧
      s.Status.LoadBalancer.Ingress.head?.map Ingress.Hostname =
        some change.ResourceRecordSet.AliasTarget.DNSName ∧
      change.ResourceRecordSet.AliasTarget.EvaluateTargetHealth = false := by
  obtain ⟨s, hs, hmem⟩ := mem_pollCycle_calls env fetch _ h
  obtain ⟨i0, irest, d0, zoneId, zrest, init, last, hi, -, -, -, -, -, hinp, -⟩ :=
    loopBody_mutation env s inp hmem
  subst hinp
  exact ⟨s, hs, _, rfl, rfl, rfl, rfl, by simp [hi], rfl⟩

/-- The request of the end-to-end scenario has the shape of C7. -/
theorem C7_record_change_shape_witness :
    Call.changeResourceRecordSets
        (upsertRequest "web.example.com" "elbname-123.us-east-1.elb.amazonaws.com"
          (some "/hostedzone/ZXYZ") "ZABC") ∈ (pollCycle webEnv (fetched [webService])).calls ∧
    ∃ s ∈ [webService], ∃ change,
      (upsertRequest "web.example.com" "elbname-123.us-east-1.elb.amazonaws.com"
        (some "/hostedzone/ZXYZ") "ZABC").ChangeBatch.Changes = [change] ∧
      change.Action = "UPSERT" ∧
      change.ResourceRecordSet.Type_ = "A" ∧
      change.ResourceRecordSet.Name = s.Metadata.Annotations.DomainName ∧
      s.Status.LoadBalancer.Ingress.head?.map Ingress.Hostname =
        some change.ResourceRecordSet.AliasTarget.DNSName ∧
      change.ResourceRecordSet.AliasTarget.EvaluateTargetHealth = false :=
  ⟨by decide, C7_record_change_shape webEnv (fetched [webService]) _ (by decide)⟩

/-- C8: the zone id a mutation is submitted against is the last "/"-separated
piece of the id of the first zone returned: it holds no "/", and it is the
whole id (which then holds no "/") or what follows a "/" of the id. The id
"/hostedzone/ABC123" gives "ABC123". -/
theorem C8_zone_id_normalization (env : Env) (s : Service)
    (inp : ChangeResourceRecordSetsInput)
    (h : Call.changeResourceRecordSets inp ∈ (loopBody env s).calls) :
    ∃ z zrest id, env.ListHostedZonesByName ⟨env.TLD⟩ = .ok ⟨z :: zrest⟩ ∧
      z.Id = some id ∧
      '/' ∉ inp.HostedZoneId.data ∧
      (id = inp.HostedZoneId ∨ ∃ pre, id.data = pre ++ '/' :: inp.HostedZoneId.data) ∧
      (id = "/hostedzone/ABC123" → inp.HostedZoneId = "ABC123") := by
  obtain ⟨i0, irest, d0, zoneId, zrest, init, last, -, -, -, -, hz, hsplit, hinp, -⟩ :=
    loopBody_mutation env s inp h
  obtain ⟨init2, last2, hs2, hno, hshape⟩ := splitChars_last '/' zoneId.data
  have hl : last = last2 := splitChars_last_eq '/' _ init init2 last last2 hsplit hs2
  subst hl
  subst hinp
  refine ⟨_, zrest, zoneId, hz, rfl, hno, ?_, ?_⟩
  · rcases hshape with ⟨-, hl⟩ | ⟨-, pre, hl⟩
    · left
      rcases zoneId with ⟨d⟩
      simp only at hl
      simp [hl]
    · exact Or.inr ⟨pre, hl⟩
  · intro hid
    rw [hid] at hsplit
    have : last = "ABC123".data :=
      splitChars_last_eq '/' _ init [[], "hostedzone".data] last _ hsplit (by decide)
    subst this
    rfl

/-- The zone of "example.com." has the id "/hostedzone/ABC123": the request for
the service "web" goes to the zone "ABC123". -/
theorem C8_zone_id_normalization_witness :
    Call.changeResourceRecordSets
        (upsertRequest "web.example.com" "elbname-123.us-east-1.elb.amazonaws.com"
          (some "ZXYZ") "ABC123") ∈ (loopBody abcZoneEnv webService).calls ∧
    ∃ z zrest id, abcZoneEnv.ListHostedZonesByName ⟨abcZoneEnv.TLD⟩ = .ok ⟨z :: zrest⟩ ∧
      z.Id = some id ∧
      '/' ∉ ("ABC123" : String).data ∧
      (id = "ABC123" ∨ ∃ pre, id.data = pre ++ '/' :: ("ABC123" : String).data) ∧
      (id = "/hostedzone/ABC123" → ("ABC123" : String) = "ABC123") :=
  ⟨by decide,
    C8_zone_id_normalization abcZoneEnv webService
      (upsertRequest "web.example.com" "elbname-123.us-east-1.elb.amazonaws.com" (some "ZXYZ")
        "ABC123") (by decide)⟩

/-- C9: the one name of a load-balancer lookup is what stands in the service's
first ingress hostname before its first hyphen: a prefix of the hostname that
holds no hyphen, the whole hostname or the part that a hyphen follows. The
hostname "abcd1234-1234567890.region.elb.example.com" gives "abcd1234". -/
theorem C9_load_balancer_name (env : Env) (s : Service) (inp : DescribeLoadBalancersInput)
    (h : Call.describeLoadBalancers inp ∈ (loopBody env s).calls) :
    ∃ i0 irest name, s.Status.LoadBalancer.Ingress = i0 :: irest ∧
      inp.LoadBalancerNames = [name] ∧
      name.data <+: i0.Hostname.data ∧
      '-' ∉ name.data ∧
      (i0.Hostname = name ∨ ∃ rest, i0.Hostname.data = name.data ++ '-' :: rest) ∧
      (i0.Hostname = "abcd1234-1234567890.region.elb.example.com" → name = "abcd1234") := by
  obtain ⟨i0, irest, hi, hinp⟩ := loopBody_lookup env s inp h
  subst hinp
  refine ⟨i0, irest, _, hi, rfl, ?_, beforeFirst_no_sep '-' _, ?_, ?_⟩
  · rcases beforeFirst_shape '-' i0.Hostname.data with hl | ⟨rest, hl⟩
    · exact ⟨[], by simp [← hl]⟩
    · exact ⟨'-' :: rest, hl.symm⟩
  · rcases beforeFirst_shape '-' i0.Hostname.data with hl | ⟨rest, hl⟩
    · left
      rcases hh : i0.Hostname with ⟨d⟩
      simp only [hh] at hl
      simp [← hl]
    · exact Or.inr ⟨rest, hl⟩
  · intro hh
    rw [hh]
    decide

/-- The service on "abcd1234-1234567890.region.elb.example.com" is looked up
under the name "abcd1234". -/
theorem C9_load_balancer_name_witness :
    Call.describeLoadBalancers ⟨["abcd1234"]⟩ ∈ (loopBody webEnv elbService).calls ∧
    ∃ i0 irest name, elbService.Status.LoadBalancer.Ingress = i0 :: irest ∧
      (⟨["abcd1234"]⟩ : DescribeLoadBalancersInput).LoadBalancerNames = [name] ∧
      name.data <+: i0.Hostname.data ∧
      '-' ∉ name.data ∧
      (i0.Hostname = name ∨ ∃ rest, i0.Hostname.data = name.data ++ '-' :: rest) ∧
      (i0.Hostname = "abcd1234-1234567890.region.elb.example.com" → name = "abcd1234") :=
  ⟨by decide, C9_load_balancer_name webEnv elbService ⟨["abcd1234"]⟩ (by decide)⟩

/-- C10 as stated fails: for a service whose only ingress entry has an empty
hostname, and a load balancer description with an empty hosted-zone id, a
record change is built and submitted with both alias target inputs empty. -/
theorem C10_empty_inputs_submitted :
    ∃ inp, Call.changeResourceRecordSets inp ∈
        (pollCycle emptyZoneIdEnv (fetched [emptyHostnameService])).calls ∧
      ∃ change ∈ inp.ChangeBatch.Changes,
        change.ResourceRecordSet.AliasTarget.DNSName = "" ∧
        change.ResourceRecordSet.AliasTarget.HostedZoneId = some "" :=
  ⟨upsertRequest "web.example.com" "" (some "") "ZABC", by decide, _,
    List.mem_singleton.mpr rfl, rfl, rfl⟩

/-- C10, amended: whenever a record change is built and submitted, its record
name is the domain annotation of a service of the catalog and is not empty;
its alias target hostname is that service's first ingress hostname and its
alias target hosted-zone id is the one of the single load balancer description
returned, both as received. -/
theorem C10_builder_inputs (env : Env) (fetch : Except String HttpResponse)
    (inp : ChangeResourceRecordSetsInput)
    (h : Call.changeResourceRecordSets inp ∈ (pollCycle env fetch).calls) :
    ∃ s ∈ fetchedItems fetch, ∃ i0 irest d0,
      s.Status.LoadBalancer.Ingress = i0 :: irest ∧
      env.DescribeLoadBalancers ⟨[String.mk (beforeFirst '-' i0.Hostname.data)]⟩ =
        .ok ⟨[d0]⟩ ∧
      s.Metadata.Annotations.DomainName ≠ "" ∧
      ∀ change ∈ inp.ChangeBatch.Changes,
        change.ResourceRecordSet.Name = s.Metadata.Annotations.DomainName ∧
        change.ResourceRecordSet.Name ≠ "" ∧
        change.ResourceRecordSet.AliasTarget.DNSName = i0.Hostname ∧
        change.ResourceRecordSet.AliasTarget.HostedZoneId = d0.CanonicalHostedZoneNameID := by
  obtain ⟨s, hs, hmem⟩ := mem_pollCycle_calls env fetch _ h
  obtain ⟨i0, irest, d0, zoneId, zrest, init, last, hi, hd, -, hlb, -, -, hinp, -⟩ :=
    loopBody_mutation env s inp hmem
  subst hinp
  refine ⟨s, hs, i0, irest, d0, hi, hlb, hd, ?_⟩
  intro change hc
  simp only [List.mem_singleton] at hc
  subst hc
  exact ⟨rfl, hd, rfl, rfl⟩

/-- The request of the end-to-end scenario: its record name "web.example.com"
is not empty. -/
theorem C10_builder_inputs_witness :
    Call.changeResourceRecordSets
        (upsertRequest "web.example.com" "elbname-123.us-east-1.elb.amazonaws.com"
          (some "/hostedzone/ZXYZ") "ZABC") ∈ (pollCycle webEnv (fetched [webService])).calls ∧
    ∃ s ∈ fetchedItems (fetched [webService]), ∃ i0 irest d0,
      s.Status.LoadBalancer.Ingress = i0 :: irest ∧
      webEnv.DescribeLoadBalancers ⟨[String.mk (beforeFirst '-' i0.Hostname.data)]⟩ =
        .ok ⟨[d0]⟩ ∧
      s.Metadata.Annotations.DomainName ≠ "" ∧
      ∀ change ∈ (upsertRequest "web.example.com" "elbname-123.us-east-1.elb.amazonaws.com"
          (some "/hostedzone/ZXYZ") "ZABC").ChangeBatch.Changes,
        change.ResourceRecordSet.Name = s.Metadata.Annotations.DomainName ∧
        change.ResourceRecordSet.Name ≠ "" ∧
        change.ResourceRecordSet.AliasTarget.DNSName = i0.Hostname ∧
        change.ResourceRecordSet.AliasTarget.HostedZoneId = d0.CanonicalHostedZoneNameID :=
  ⟨by decide, C10_builder_inputs webEnv (fetched [webService]) _ (by decide)⟩


end K8sRoute53
